import Mathlib

/-!
Verification of the vision_classification training harness.

Shallow embedding of the repository's core logic:
* `checkCfgs`        — `check_cfgs` (src/utils/general.py, lines 60-101)
* `setAugmentTrain`, `autoAugWeaken`
                     — `SmartDataProcessor.set_augment` / `auto_aug_weaken`
                       (general.py, lines 213-222)
* `autoReplaceLossfn`, `autoMixup`, `autoProg`
                     — `CenterProcessor.auto_replace_lossfn` / `auto_mixup` /
                       `auto_prog` (general.py, lines 322-362)
* `epochBody`, `runFrom`, `runFresh`
                     — the epoch loop of `CenterProcessor.run`
                       (general.py, lines 366-460), for a fresh run
* `datasetsInit`     — `Datasets.__init__` (src/utils/datasets.py, lines 10-43)

Randomness (the uniform mixup-probability draw and the Beta interpolation
draw) is modelled by explicit per-epoch sample streams; the external
`train_one_epoch` collaborator is modelled by its returned fitness stream,
exactly as the spec's one-epoch-step contract describes.  Model, scheduler
and scaler states are opaque collaborators (spec §1, §4.5) and are carried
as `Unit` placeholders inside the checkpoint bundle.
-/

namespace VisCls

/-! ## Transform pipeline steps (tagged variants of the torchvision objects
used by `auto_prog`: `CenterCrop`, `Resize`, `CenterCropAndResize`, other). -/

inductive TStep where
  | centerCrop (size : Int)
  | resize (size : Int)
  | centerCropAndResize (cropSize resizeSize : Int)
  | other (tag : Nat)
deriving DecidableEq

/-! ## SmartDataProcessor (general.py lines 192-222): the two datasets'
active transform pipelines. -/

structure DataState where
  trainT : List TStep
  valT : List TStep
deriving DecidableEq

/-- Models `set_augment('train', sequence)` (general.py lines 213-217):
`None` resets the train pipeline to the val dataset's current pipeline. -/
def setAugmentTrain (d : DataState) (sequence : Option (List TStep)) : DataState :=
  { d with trainT := sequence.getD d.valT }

/-- Models `auto_aug_weaken` (general.py lines 219-222). -/
def autoAugWeaken (d : DataState) (epoch milestone : Int) : DataState :=
  if epoch = milestone then setAugmentTrain d none else d

/-! ## Loss objects.  `base` is the initially configured ce/bce loss object,
`focal` the replacement created by `create_Lossfn('focal')`, `nullLoss`
models Python `None` (the value of `self.focal` when focal loss is off). -/

inductive LossFn where
  | base
  | focal
  | nullLoss
deriving DecidableEq

/-! ## Configuration reaching `CenterProcessor.run` (after `check_cfgs`). -/

structure RunCfg where
  epochs : Nat
  warm_ep : Nat
  warmup_momentum : ℚ
  momentum : ℚ
  mixup : ℚ
  mixup_milestone : Int × Int
  aug_epoch : Int
  focal_eff_epo : Int
  focal_on_init : Bool
  focalObj : LossFn
  prog_learn : Bool
  imgsz : List Int
  fullTrainAug : List TStep
  valAug : List TStep
  rank : Int
  isCpu : Bool

/-! ## CenterProcessor mutable state across epochs. -/

structure ProcState where
  data : DataState
  momentum : ℚ
  lossfn : LossFn
  focal_on : Bool
  betaAlpha : ℚ
  best_fitness : ℚ
deriving DecidableEq

/-- Initial state of a fresh run: the optimizer is constructed with the
warmup momentum (general.py lines 267-269), the loss with the configured
ce/bce loss (lines 274-277), `focal_on` from the strategy string (line 309),
the Beta sampler with alpha 0.1 (line 318), datasets with the configured
train/val pipelines (lines 199-211), `best_fitness = 0.` (line 390). -/
def initState (cfg : RunCfg) : ProcState :=
  ⟨⟨cfg.fullTrainAug, cfg.valAug⟩, cfg.warmup_momentum, LossFn.base,
    cfg.focal_on_init, 1/10, 0⟩

/-- Models `auto_replace_lossfn` (general.py lines 322-326): under the guard
`not on or cur_epo < effect_epo` the state is returned unchanged, otherwise
the active loss becomes `lossfn` and `focal_on` is cleared (written
field-wise; equal to the two-branch original by structure eta). -/
def autoReplaceLossfn (s : ProcState) (lossfn : LossFn) (cur_epo eff : Int)
    (onFlag : Bool) : ProcState :=
  { s with
    lossfn := if onFlag = false ∨ cur_epo < eff then s.lossfn else lossfn,
    focal_on := if onFlag = false ∨ cur_epo < eff then s.focal_on else false }

/-- Models `auto_mixup` (general.py lines 328-334).  `u` is the uniform(0,1) draw,
`lam` the Beta draw; both are drawn only in the else-branch. -/
def autoMixup (mixup : ℚ) (epoch : Int) (milestone : Int × Int)
    (u lam : ℚ) : Bool × Option ℚ :=
  if mixup = 0 ∨ milestone.2 ≤ epoch ∨ epoch < milestone.1 then (false, none)
  else (decide (u < mixup), some lam)

/-- Minimum of an integer list (Python `min`; the empty case cannot occur). -/
def minList : List Int → Int
  | [] => 0
  | x :: xs => xs.foldl min x

/-- Models `self.mixup_chnodes` (general.py line 300):
`torch.linspace(mix0, mix1, 3, dtype=int32).round_().tolist()[:-1]`;
the integer-dtype linspace truncates the midpoint toward zero. -/
def mixupChnodes (cfg : RunCfg) : List Int :=
  [cfg.mixup_milestone.1, Int.tdiv (cfg.mixup_milestone.1 + cfg.mixup_milestone.2) 2]

/-- The pipeline rewrite inside `auto_prog` (general.py lines 350-361). -/
def progRewrite (size : Int) : List TStep → List TStep
  | [] => []
  | TStep.centerCrop c :: rest =>
    match rest with
    | TStep.resize _ :: _ => TStep.centerCrop c :: progRewrite size rest
    | _ :: _ => TStep.centerCrop c :: TStep.resize size :: progRewrite size rest
    | [] => TStep.centerCrop c :: progRewrite size rest
  | TStep.resize _ :: rest => TStep.resize size :: progRewrite size rest
  | TStep.centerCropAndResize c _ :: rest =>
    TStep.centerCropAndResize c size :: progRewrite size rest
  | TStep.other t :: rest => TStep.other t :: progRewrite size rest

/-- Models `auto_prog` (general.py lines 336-362).  `imgsz_milestone` is
`torch.linspace(int(min*0.5), min, 3, dtype=int32)`, truncating toward
zero. -/
def autoProg (cfg : RunCfg) (s : ProcState) (epoch : Int) : ProcState :=
  let chnodes := mixupChnodes cfg
  let minI := minList cfg.imgsz
  let ms : List Int := [Int.tdiv minI 2, Int.tdiv (Int.tdiv minI 2 + minI) 2, minI]
  let sizeOpt : Option Int :=
    if epoch = 0 then some (ms.getD 0 0)
    else if epoch = chnodes.getD 0 0 then some (ms.getD 1 0)
    else if epoch = chnodes.getD 1 0 then some (ms.getD 2 0)
    else none
  { s with
    betaAlpha :=
      if epoch ∈ chnodes then ((List.indexOf epoch chnodes : ℚ) + 1) * (1/10)
      else s.betaAlpha,
    data := { s.data with
      trainT := match sizeOpt with
        | none => s.data.trainT
        | some size => progRewrite size s.data.trainT } }

/-! ## Checkpoint bundle (general.py lines 446-454).  Model, scheduler and
scaler states are opaque collaborators; the optimizer state is represented
by the momentum of its first parameter group, which is the only optimizer
field the orchestration core manipulates. -/

structure Ckpt where
  epoch : Nat
  best_fitness : ℚ
  modelState : Unit
  optimizerMomentum : ℚ
  schedulerState : Unit
  scaler : Option Unit
deriving DecidableEq

/-! ## Per-epoch observable record of the loop body. -/

structure EpochLog where
  epoch : Nat
  relEpoch : Int
  momentumUsed : ℚ
  momentumSwitched : Bool
  lossUsed : LossFn
  focalSwapped : Bool
  is_mixup : Bool
  lam : Option ℚ
  fitness : ℚ
  bestAfter : ℚ
  savedLast : Option Ckpt
  savedBest : Option Ckpt
deriving DecidableEq

/-- One iteration of the epoch loop of `CenterProcessor.run`
(general.py lines 413-460).  `f` is the fitness returned by the external
`train_one_epoch`, `u`/`b` the per-epoch uniform/Beta draws.  `relEpoch`
is the single warmup-relative index `int(epoch - warm_ep)` passed to every
curriculum call (lines 424, 427, 431, 434). -/
def epochBody (cfg : RunCfg) (f u b : Nat → ℚ) (epoch : Nat)
    (s : ProcState) : ProcState × EpochLog :=
  -- line 415-416: warmup sets the train augment to the val pipeline
  let d1 := if epoch = 0 then setAugmentTrain s.data none else s.data
  -- lines 419-421: momentum switch and full train pipeline restore
  let mom := if epoch = cfg.warm_ep then cfg.momentum else s.momentum
  let d2 := if epoch = cfg.warm_ep then setAugmentTrain d1 (some cfg.fullTrainAug) else d1
  let s2 : ProcState := ⟨d2, mom, s.lossfn, s.focal_on, s.betaAlpha, s.best_fitness⟩
  let rel : Int := (epoch : Int) - (cfg.warm_ep : Int)
  -- line 424: bce -> focal hot swap
  let swapped := s2.focal_on && decide (cfg.focal_eff_epo ≤ rel)
  let s3 := autoReplaceLossfn s2 cfg.focalObj rel cfg.focal_eff_epo s2.focal_on
  -- line 427: weaken data augment at milestone
  let s4 := { s3 with data := autoAugWeaken s3.data rel cfg.aug_epoch }
  -- lines 430-431: progressive learning
  let s5 := if cfg.prog_learn then autoProg cfg s4 rel else s4
  -- line 434: mixup decision
  let mix := autoMixup cfg.mixup rel cfg.mixup_milestone (u epoch) (b epoch)
  -- line 437: external one-epoch train+val step
  let fit := f epoch
  -- lines 439-460: best-fitness update and checkpointing on the
  -- coordinating rank only
  let sv : ℚ × Option Ckpt × Option Ckpt :=
    if cfg.rank = -1 ∨ cfg.rank = 0 then
      let newBest := if fit > s5.best_fitness then fit else s5.best_fitness
      let ckpt : Ckpt := ⟨epoch, newBest, (), s5.momentum, (),
        if cfg.isCpu then none else some ()⟩
      (newBest, some ckpt, if newBest = fit then some ckpt else none)
    else (s5.best_fitness, none, none)
  let s6 := { s5 with best_fitness := sv.1 }
  (s6, ⟨epoch, rel, s5.momentum, decide (epoch = cfg.warm_ep), s5.lossfn,
        swapped, mix.1, mix.2, fit, sv.1, sv.2.1, sv.2.2⟩)

/-- Runs `n` epochs starting at epoch index `e` (the `for epoch in
range(start_epoch, total_epoch)` loop), collecting the per-epoch logs. -/
def runFrom (cfg : RunCfg) (f u b : Nat → ℚ) :
    Nat → Nat → ProcState → ProcState × List EpochLog
  | _, 0, s => (s, [])
  | e, Nat.succ n, s =>
    let step := epochBody cfg f u b e s
    let rest := runFrom cfg f u b (e + 1) n step.1
    (rest.1, step.2 :: rest.2)

/-- A fresh (non-resumed) run: `start_epoch = 0`,
`total_epoch = epochs + warm_ep` (general.py lines 390-391, 412-413). -/
def runFresh (cfg : RunCfg) (f u b : Nat → ℚ) : ProcState × List EpochLog :=
  runFrom cfg f u b 0 (cfg.epochs + cfg.warm_ep) (initState cfg)

/-- Junk log used as the `getD` default (never selected in-range). -/
def dummyLog : EpochLog := ⟨0, 0, 0, false, LossFn.base, false, false, none, 0, 0, none, none⟩

/-- The log of epoch `i` of a fresh run. -/
def runLog (cfg : RunCfg) (f u b : Nat → ℚ) (i : Nat) : EpochLog :=
  ((runFresh cfg f u b).2).getD i dummyLog

/-- The running best fitness before epoch `n`: starts at `0.` and takes
each epoch's fitness only on strict improvement (general.py lines 390,
441-442). -/
def bestUpTo (f : Nat → ℚ) : Nat → ℚ
  | 0 => 0
  | n + 1 => if f n > bestUpTo f n then f n else bestUpTo f n

/-- The checkpoint bundle epoch `e` writes (general.py lines 446-454). -/
def expectedCkpt (cfg : RunCfg) (f : Nat → ℚ) (e : Nat) : Ckpt :=
  ⟨e, bestUpTo f (e + 1), (),
   (if e < cfg.warm_ep then cfg.warmup_momentum else cfg.momentum), (),
   (if cfg.isCpu then none else some ())⟩

/-! ## Projection lemmas for one loop iteration. -/

theorem autoProg_momentum (cfg : RunCfg) (s : ProcState) (ep : Int) :
    (autoProg cfg s ep).momentum = s.momentum := rfl

theorem autoProg_lossfn (cfg : RunCfg) (s : ProcState) (ep : Int) :
    (autoProg cfg s ep).lossfn = s.lossfn := rfl

theorem autoProg_focal (cfg : RunCfg) (s : ProcState) (ep : Int) :
    (autoProg cfg s ep).focal_on = s.focal_on := rfl

theorem autoProg_best (cfg : RunCfg) (s : ProcState) (ep : Int) :
    (autoProg cfg s ep).best_fitness = s.best_fitness := rfl

theorem eb_epoch (cfg : RunCfg) (f u b : Nat → ℚ) (e : Nat) (s : ProcState) :
    (epochBody cfg f u b e s).2.epoch = e := rfl

theorem eb_rel (cfg : RunCfg) (f u b : Nat → ℚ) (e : Nat) (s : ProcState) :
    (epochBody cfg f u b e s).2.relEpoch = (e : Int) - cfg.warm_ep := rfl

theorem eb_mswitch (cfg : RunCfg) (f u b : Nat → ℚ) (e : Nat) (s : ProcState) :
    (epochBody cfg f u b e s).2.momentumSwitched = decide (e = cfg.warm_ep) := rfl

theorem eb_swapflag (cfg : RunCfg) (f u b : Nat → ℚ) (e : Nat) (s : ProcState) :
    (epochBody cfg f u b e s).2.focalSwapped
      = (s.focal_on && decide (cfg.focal_eff_epo ≤ (e : Int) - cfg.warm_ep)) := rfl

theorem eb_fit (cfg : RunCfg) (f u b : Nat → ℚ) (e : Nat) (s : ProcState) :
    (epochBody cfg f u b e s).2.fitness = f e := rfl

theorem eb_bestAfter (cfg : RunCfg) (f u b : Nat → ℚ) (e : Nat) (s : ProcState) :
    (epochBody cfg f u b e s).2.bestAfter
      = (epochBody cfg f u b e s).1.best_fitness := rfl

theorem eb_mom (cfg : RunCfg) (f u b : Nat → ℚ) (e : Nat) (s : ProcState) :
    (epochBody cfg f u b e s).2.momentumUsed
      = (if e = cfg.warm_ep then cfg.momentum else s.momentum) := by
  simp only [epochBody, autoReplaceLossfn, apply_ite ProcState.momentum,
    autoProg_momentum, ite_self]

theorem eb_mom_state (cfg : RunCfg) (f u b : Nat → ℚ) (e : Nat) (s : ProcState) :
    (epochBody cfg f u b e s).1.momentum
      = (if e = cfg.warm_ep then cfg.momentum else s.momentum) := by
  simp only [epochBody, autoReplaceLossfn, apply_ite ProcState.momentum,
    autoProg_momentum, ite_self]

theorem eb_loss (cfg : RunCfg) (f u b : Nat → ℚ) (e : Nat) (s : ProcState) :
    (epochBody cfg f u b e s).2.lossUsed
      = (if s.focal_on = false ∨ (e : Int) - cfg.warm_ep < cfg.focal_eff_epo
         then s.lossfn else cfg.focalObj) := by
  simp only [epochBody, autoReplaceLossfn, apply_ite ProcState.lossfn,
    autoProg_lossfn, ite_self]

theorem eb_loss_state (cfg : RunCfg) (f u b : Nat → ℚ) (e : Nat) (s : ProcState) :
    (epochBody cfg f u b e s).1.lossfn
      = (if s.focal_on = false ∨ (e : Int) - cfg.warm_ep < cfg.focal_eff_epo
         then s.lossfn else cfg.focalObj) := by
  simp only [epochBody, autoReplaceLossfn, apply_ite ProcState.lossfn,
    autoProg_lossfn, ite_self]

theorem eb_focal_state (cfg : RunCfg) (f u b : Nat → ℚ) (e : Nat) (s : ProcState) :
    (epochBody cfg f u b e s).1.focal_on
      = (if s.focal_on = false ∨ (e : Int) - cfg.warm_ep < cfg.focal_eff_epo
         then s.focal_on else false) := by
  simp only [epochBody, autoReplaceLossfn, apply_ite ProcState.focal_on,
    autoProg_focal, ite_self]

theorem eb_best_state (cfg : RunCfg) (f u b : Nat → ℚ) (e : Nat) (s : ProcState) :
    (epochBody cfg f u b e s).1.best_fitness
      = (if cfg.rank = -1 ∨ cfg.rank = 0 then
          (if f e > s.best_fitness then f e else s.best_fitness)
         else s.best_fitness) := by
  simp only [epochBody, autoReplaceLossfn, apply_ite ProcState.best_fitness,
    apply_ite (Prod.fst : ℚ × Option Ckpt × Option Ckpt → ℚ),
    autoProg_best, ite_self]

theorem eb_savedLast (cfg : RunCfg) (f u b : Nat → ℚ) (e : Nat) (s : ProcState) :
    (epochBody cfg f u b e s).2.savedLast
      = (if cfg.rank = -1 ∨ cfg.rank = 0 then
          some ⟨e, (if f e > s.best_fitness then f e else s.best_fitness), (),
                (if e = cfg.warm_ep then cfg.momentum else s.momentum), (),
                (if cfg.isCpu then none else some ())⟩
         else none) := by
  simp only [epochBody, autoReplaceLossfn, autoProg_best, autoProg_momentum,
    apply_ite (fun p : ℚ × Option Ckpt × Option Ckpt => p.2.1),
    apply_ite ProcState.best_fitness, apply_ite ProcState.momentum, ite_self]

theorem eb_savedBest (cfg : RunCfg) (f u b : Nat → ℚ) (e : Nat) (s : ProcState) :
    (epochBody cfg f u b e s).2.savedBest
      = (if cfg.rank = -1 ∨ cfg.rank = 0 then
          (if (if f e > s.best_fitness then f e else s.best_fitness) = f e then
            some ⟨e, (if f e > s.best_fitness then f e else s.best_fitness), (),
                  (if e = cfg.warm_ep then cfg.momentum else s.momentum), (),
                  (if cfg.isCpu then none else some ())⟩
           else none)
         else none) := by
  simp only [epochBody, autoReplaceLossfn, autoProg_best, autoProg_momentum,
    apply_ite (fun p : ℚ × Option Ckpt × Option Ckpt => p.2.2),
    apply_ite ProcState.best_fitness, apply_ite ProcState.momentum, ite_self]

/-! ## Generic loop lemmas. -/

theorem runFrom_length (cfg : RunCfg) (f u b : Nat → ℚ) :
    ∀ (n e : Nat) (s : ProcState), ((runFrom cfg f u b e n s).2).length = n := by
  intro n
  induction n with
  | zero => intro e s; rfl
  | succ n ih => intro e s; simp [runFrom, ih]

theorem runFresh_length (cfg : RunCfg) (f u b : Nat → ℚ) :
    ((runFresh cfg f u b).2).length = cfg.epochs + cfg.warm_ep :=
  runFrom_length cfg f u b (cfg.epochs + cfg.warm_ep) 0 (initState cfg)

/-- Invariant-carrying induction over the epoch loop: if `I` is preserved
by one loop iteration and each iteration's log satisfies `P`, then every
collected log satisfies `P` at its epoch index. -/
theorem runFrom_log (cfg : RunCfg) (f u b : Nat → ℚ)
    (I : Nat → ProcState → Prop) (P : Nat → EpochLog → Prop)
    (hstep : ∀ e s, I e s →
      P e (epochBody cfg f u b e s).2 ∧ I (e + 1) (epochBody cfg f u b e s).1) :
    ∀ (n e : Nat) (s : ProcState), I e s →
      ∀ i (hi : i < ((runFrom cfg f u b e n s).2).length),
        P (e + i) (((runFrom cfg f u b e n s).2).get ⟨i, hi⟩) := by
  intro n
  induction n with
  | zero =>
    intro e s _ i hi
    simp [runFrom] at hi
  | succ n ih =>
    intro e s hI i hi
    cases i with
    | zero =>
      simpa [runFrom] using (hstep e s hI).1
    | succ j =>
      have hj : j < ((runFrom cfg f u b (e + 1) n (epochBody cfg f u b e s).1).2).length := by
        have := hi
        simp [runFrom, runFrom_length] at this ⊢
        omega
      have h2 := ih (e + 1) (epochBody cfg f u b e s).1 (hstep e s hI).2 j hj
      have he : e + (j + 1) = (e + 1) + j := by omega
      rw [he]
      simpa [runFrom] using h2

theorem runLog_eq_get (cfg : RunCfg) (f u b : Nat → ℚ) (i : Nat)
    (hlen : i < ((runFresh cfg f u b).2).length) :
    runLog cfg f u b i = ((runFresh cfg f u b).2).get ⟨i, hlen⟩ := by
  simp [runLog, List.getD_eq_getElem _ _ hlen, List.getElem?_eq_getElem hlen,
    List.get_eq_getElem]


/-! ## Configuration validation: `check_cfgs` (general.py lines 60-101). -/

inductive CfgError where
  | modelChoice
  | kwargsKey
  | normalizePair
  | lossFlags
  | optimizerName
  | schedulerName
  | warmEpRange
  | warmZeroScheduler
  | warmPosScheduler
  | focalNeedsBce
  | mixupRange
  | milestoneShape
  | milestoneOrder
  | progLearnWindow
  | twoSizeAugs
  | sizeAugVal
  | trailingMismatch
deriving DecidableEq

/-- Configuration as `check_cfgs` reads it.  `choice_kind` is
`model_cfg['choice'].split('-')[0]`; the augment strings are represented by
their whitespace-split token lists; `has_kwargs` is the truthiness of
`model_cfg['kwargs']`; `focal_on`/`focal_eff` and `mixup`/`mixup_milestone`
are the already-eval'ed components of the two strategy strings. -/
structure Cfgs where
  choice_kind : String
  has_kwargs : Bool
  kwargs_keys : List String
  pretrained : Bool
  train_augment : List String
  val_augment : List String
  loss_ce : Bool
  loss_bce : Bool
  optimizer : String
  scheduler : String
  warm_ep : Int
  epochs : Int
  focal_on : Bool
  mixup : ℚ
  mixup_milestone : List Int
  prog_learn : Bool
  aug_epoch : Int

/-- Python `train_augs[-n:]`: for `n = 0` the slice `[-0:]` is the whole
list; otherwise the last `n` elements. -/
def lastSlice (l : List String) (n : Nat) : List String :=
  if n = 0 then l else l.drop (l.length - n)

/-- One `assert p, e` step: `rest` runs only when `p` holds, otherwise the
checker stops with error `e` (Python's first failing assert raises). -/
def req (p : Prop) [Decidable p] (e : CfgError)
    (rest : Except CfgError Unit) : Except CfgError Unit :=
  if p then rest else Except.error e

/-- The strategy checks from `mix0, mix1 = mixup_milestone` on
(general.py lines 87-101); destructuring a list of length other than two
raises (modelled as `milestoneShape`). -/
def checkTail (c : Cfgs) : List Int → Except CfgError Unit
  | [m0, m1] =>
    -- line 88
    req (m0 < m1) .milestoneOrder <|
    -- line 91
    req (c.prog_learn → 0 < c.mixup ∧ m1 ≤ c.aug_epoch) .progLearnWindow <|
    -- line 96
    req (¬ ("center_crop" ∈ c.train_augment ∧ "resize" ∈ c.train_augment)) .twoSizeAugs <|
    -- lines 97-99
    req (∀ a ∈ (["center_crop", "resize"] : List String),
      a ∈ c.train_augment → a ∈ c.val_augment) .sizeAugVal <|
    -- lines 100-101
    req (lastSlice c.train_augment c.val_augment.length = c.val_augment) .trailingMismatch <|
    Except.ok ()
  | _ => Except.error .milestoneShape

/-- Models `check_cfgs` (general.py lines 60-101): each `assert`/`raise`, in
source order, becomes a `req` step naming its error. -/
def checkCfgs (c : Cfgs) : Except CfgError Unit :=
  -- line 65
  req (c.choice_kind = "torchvision" ∨ c.choice_kind = "custom") .modelChoice <|
  -- lines 66-68
  req (c.has_kwargs → c.pretrained → ∀ k ∈ c.kwargs_keys, k = "dropout") .kwargsKey <|
  -- lines 69-71
  req ((c.pretrained ∧ "normalize" ∈ c.train_augment ∧ "normalize" ∈ c.val_augment)
    ∨ (¬ c.pretrained ∧ "normalize" ∉ c.train_augment ∧ "normalize" ∉ c.val_augment))
    .normalizePair <|
  -- line 73
  req ((if c.loss_ce then 1 else 0) + (if c.loss_bce then 1 else 0) = 1) .lossFlags <|
  -- line 75
  req (c.optimizer = "sgd" ∨ c.optimizer = "adam") .optimizerName <|
  -- line 77
  req (c.scheduler = "linear" ∨ c.scheduler = "cosine"
    ∨ c.scheduler = "linear_with_warm" ∨ c.scheduler = "cosine_with_warm") .schedulerName <|
  -- line 78
  req (0 ≤ c.warm_ep ∧ c.warm_ep < c.epochs) .warmEpRange <|
  -- line 79
  req (c.warm_ep = 0 → c.scheduler = "linear" ∨ c.scheduler = "cosine") .warmZeroScheduler <|
  -- line 80
  req (0 < c.warm_ep → c.scheduler = "linear_with_warm" ∨ c.scheduler = "cosine_with_warm")
    .warmPosScheduler <|
  -- line 83
  req (c.focal_on → c.loss_bce) .focalNeedsBce <|
  -- line 86
  req (0 ≤ c.mixup ∧ c.mixup ≤ 1) .mixupRange <|
  -- lines 87-101
  checkTail c c.mixup_milestone

theorem req_ok (p : Prop) [Decidable p] (e : CfgError)
    (rest : Except CfgError Unit) :
    req p e rest = Except.ok () ↔ p ∧ rest = Except.ok () := by
  unfold req
  split
  · simp_all
  · simp_all

instance : DecidableEq (Except CfgError Unit) := fun x y =>
  match x, y with
  | Except.ok a, Except.ok b =>
    decidable_of_iff (a = b) ⟨congrArg Except.ok, Except.ok.inj⟩
  | Except.error a, Except.error b =>
    decidable_of_iff (a = b) ⟨congrArg Except.error, Except.error.inj⟩
  | Except.ok _, Except.error _ => isFalse (fun hh => Except.noConfusion hh)
  | Except.error _, Except.ok _ => isFalse (fun hh => Except.noConfusion hh)

/-! ## Dataset construction: `Datasets.__init__` (datasets.py lines 10-43). -/

/-- Models `os.path.join` of two components. -/
def pj (a b : String) : String := a ++ "/" ++ b

/-- The extension component of `os.path.splitext` on a bare filename: the
suffix from the last dot, provided some character before that dot is not
itself a dot (leading dots never start an extension). -/
def splitextExt (s : String) : String :=
  let cs := s.toList
  let dots := (List.range cs.length).filter (fun i => cs.getD i ' ' == '.')
  match dots.getLast? with
  | none => ""
  | some d =>
    if (List.range d).all (fun j => cs.getD j ' ' == '.') then ""
    else String.mk (cs.drop d)

/-- Accepted image extensions (datasets.py line 25). -/
def support : List String := [".jpg", ".png"]

/-- Python `sorted` order on the class names. -/
def sortStrings (l : List String) : List String :=
  List.insertionSort (fun a b : String => a ≤ b) l

/-- Models `class_indices = dict((k, v) for v, k in enumerate(data_class))`
(datasets.py line 17), as the association list name ↦ 0-based index. -/
def classIndices (data_class : List String) : List (String × Nat) :=
  data_class.enum.map (fun p => (p.2, p.1))

/-- The class-name-to-index mapping as a function of the raw directory
listing: `os.listdir` output is sorted first (datasets.py lines 13-17). -/
def classIndicesOfListing (listing : List String) : List (String × Nat) :=
  classIndices (sortStrings listing)

/-- The files of one class directory that survive the extension filter,
joined to full paths (datasets.py lines 31-33). -/
def collectClass (srcPath cla : String) (listdirOf : String → List String) :
    List String :=
  ((listdirOf (pj srcPath cla)).filter (fun i => splitextExt i ∈ support)).map
    (fun i => pj (pj srcPath cla) i)

/-- The class-by-class collection loop (datasets.py lines 30-37).  `idx` is
the running class index: iterating `for cla in data_class`, the label
`class_indices[cla]` of the class at position `k` of `data_class` is `k`,
because `class_indices` is built from `enumerate(data_class)` and
`os.listdir` yields distinct names. -/
def buildFrom (srcPath : String) (listdirOf : String → List String) :
    List String → Nat → List String × List Nat
  | [], _ => ([], [])
  | cla :: rest, idx =>
    let imgs := collectClass srcPath cla listdirOf
    let pr := buildFrom srcPath listdirOf rest (idx + 1)
    (imgs ++ pr.1, imgs.map (fun _ => idx) ++ pr.2)

structure DatasetModel where
  images : List String
  labels : List Nat
  classNames : List String

/-- Models `Datasets.__init__` (datasets.py lines 10-43): list `root/mode`, keep
subdirectories, sort, index, and collect supported files class by class.
`listdirOf` and `isDir` model the filesystem (`os.listdir`/`os.path.isdir`). -/
def datasetsInit (root mode : String) (listdirOf : String → List String)
    (isDir : String → Bool) : DatasetModel :=
  let srcPath := pj root mode
  let data_class :=
    sortStrings ((listdirOf srcPath).filter (fun cla => isDir (pj srcPath cla)))
  let pr := buildFrom srcPath listdirOf data_class 0
  ⟨pr.1, pr.2, data_class⟩

/-- Models `Datasets.__len__` (datasets.py lines 57-58). -/
def datasetsLen (d : DatasetModel) : Nat := d.images.length

/-! ## Concrete inputs used by witnesses and counterexamples. -/

/-- A configuration that passes every `check_cfgs` assertion. -/
def cfgOk : Cfgs :=
  ⟨"torchvision", false, [], true,
   ["random_horizonflip", "resize", "normalize"], ["resize", "normalize"],
   true, false, "sgd", "linear_with_warm", 1, 3, false, 0, [0, 3], false, 3⟩

/-- The spec scenario: train augment `"center_crop resize normalize"`,
val augment `"resize normalize"`, all other fields valid. -/
def cfgScenario : Cfgs :=
  ⟨"torchvision", false, [], true,
   ["center_crop", "resize", "normalize"], ["resize", "normalize"],
   true, false, "sgd", "linear_with_warm", 1, 3, false, 0, [0, 3], false, 3⟩

def dataStateEx : DataState := ⟨[TStep.other 0], [TStep.other 1]⟩

/-! ## Claims about the leaf operations. -/

/-- Claim C3: the per-epoch mixup decision returns no-mixup (`False` with no
interpolation weight) when the ratio is 0 or the curriculum-relative epoch
lies outside the half-open window `[milestone_start, milestone_end)`;
otherwise it consumes the uniform(0,1) draw `u` and is active exactly when
`u` is below the configured ratio (returning the Beta draw as weight). -/
theorem autoMixup_window_decision (mixup : ℚ) (epoch : Int)
    (milestone : Int × Int) (u lam : ℚ) :
    ((mixup = 0 ∨ epoch < milestone.1 ∨ milestone.2 ≤ epoch) →
      autoMixup mixup epoch milestone u lam = (false, none)) ∧
    (mixup ≠ 0 → milestone.1 ≤ epoch → epoch < milestone.2 →
      autoMixup mixup epoch milestone u lam = (decide (u < mixup), some lam)) := by
  constructor
  · intro h
    unfold autoMixup
    rcases h with h | h | h
    · rw [if_pos (Or.inl h)]
    · rw [if_pos (Or.inr (Or.inr h))]
    · rw [if_pos (Or.inr (Or.inl h))]
  · intro h1 h2 h3
    unfold autoMixup
    rw [if_neg]
    push_neg
    exact ⟨h1, h3, h2⟩

/-- Witness for C3: ratio 1/2, relative epoch 3 inside `[0, 10)`, uniform
draw 1/4 < 1/2 activates mixup and passes the Beta draw 7/10 through. -/
theorem autoMixup_window_decision_witness :
    autoMixup (1/2) 3 (0, 10) (1/4) (7/10) = (true, some (7/10)) := by
  have h := (autoMixup_window_decision (1/2) 3 (0, 10) (1/4) (7/10)).2
    (by norm_num) (by decide) (by decide)
  rw [h]
  simp only [Prod.mk.injEq, decide_eq_true_eq]
  exact ⟨by norm_num, trivial⟩

/-- Claim C6: `auto_aug_weaken(relative_epoch, milestone)` replaces the
train pipeline with the val dataset's current (weak) pipeline exactly when
`relative_epoch = milestone`, is a no-op at every other relative epoch, and
in particular every later call (`e2 > milestone`) leaves the state reached
at the milestone unchanged: the train pipeline stays the weak pipeline. -/
theorem autoAugWeaken_one_shot (d : DataState) (e m : Int) :
    (e = m → (autoAugWeaken d e m).trainT = d.valT) ∧
    (e ≠ m → autoAugWeaken d e m = d) ∧
    (autoAugWeaken d m m).trainT = d.valT ∧
    (∀ e2, m < e2 →
      autoAugWeaken (autoAugWeaken d m m) e2 m = autoAugWeaken d m m) := by
  refine ⟨?_, ?_, ?_, ?_⟩
  · intro h
    simp [autoAugWeaken, h, setAugmentTrain]
  · intro h
    simp [autoAugWeaken, h]
  · simp [autoAugWeaken, setAugmentTrain]
  · intro e2 h2
    have hne : e2 ≠ m := by omega
    simp [autoAugWeaken, hne]

/-- Witness for C6: at the milestone the train pipeline becomes the val
pipeline, and a later call changes nothing. -/
theorem autoAugWeaken_one_shot_witness :
    (autoAugWeaken dataStateEx 2 2).trainT = [TStep.other 1] ∧
    autoAugWeaken (autoAugWeaken dataStateEx 2 2) 5 2
      = autoAugWeaken dataStateEx 2 2 := by
  refine ⟨(autoAugWeaken_one_shot dataStateEx 2 2).1 rfl, ?_⟩
  exact (autoAugWeaken_one_shot dataStateEx 2 2).2.2.2 5 (by decide)

/-! ## Claims about `check_cfgs`. -/

/-- Claim C7 (amended): validation succeeds only if the last
`len(val_tokens)` tokens of the train augment equal the val token list and
every size-changing token (`center_crop`, `resize`) of the train augment
also appears in the val augment; but the specific scenario configuration
(train `"center_crop resize normalize"`, val `"resize normalize"`) fails
with the conflicting-size-changing-augmentations error of line 96, not the
trailing-mismatch error (its trailing tokens do match). -/
theorem checkCfgs_augment_rules :
    (∀ c : Cfgs, checkCfgs c = Except.ok () →
      lastSlice c.train_augment c.val_augment.length = c.val_augment ∧
      (∀ a ∈ (["center_crop", "resize"] : List String),
        a ∈ c.train_augment → a ∈ c.val_augment)) ∧
    checkCfgs cfgScenario = Except.error CfgError.twoSizeAugs := by
  constructor
  · intro c h
    unfold checkCfgs at h
    simp only [req_ok] at h
    have hm := h.2.2.2.2.2.2.2.2.2.2.2
    rcases hl : c.mixup_milestone with _ | ⟨m0, _ | ⟨m1, _ | ⟨x, r⟩⟩⟩ <;>
      rw [hl] at hm
    · exact Except.noConfusion hm
    · exact Except.noConfusion hm
    · simp only [checkTail, req_ok] at hm
      exact ⟨hm.2.2.2.2.1, hm.2.2.2.1⟩
    · exact Except.noConfusion hm
  · decide

/-- Counterexample for C7 as stated: the scenario configuration does fail
validation, but the error raised is the line-96 conflict between
`center_crop` and `resize` in the train augment, not the line-101
trailing-mismatch error the claim names. -/
theorem checkCfgs_scenario_counterexample :
    checkCfgs cfgScenario = Except.error CfgError.twoSizeAugs ∧
    CfgError.twoSizeAugs ≠ CfgError.trailingMismatch := by
  constructor
  · decide
  · decide

/-- Witness for C7: a configuration accepted by `check_cfgs` indeed has
matching trailing tokens and its size-changing tokens in val. -/
theorem checkCfgs_augment_rules_witness :
    lastSlice cfgOk.train_augment cfgOk.val_augment.length = cfgOk.val_augment ∧
    (∀ a ∈ (["center_crop", "resize"] : List String),
      a ∈ cfgOk.train_augment → a ∈ cfgOk.val_augment) :=
  checkCfgs_augment_rules.1 cfgOk (by decide)

/-- Claim C8: any configuration accepted by `check_cfgs` satisfies
`0 ≤ warm_ep < epochs`; equivalently, a negative warmup epoch count or one
at least the total epoch count is rejected before the epoch loop runs. -/
theorem checkCfgs_warm_bounds (c : Cfgs) (h : checkCfgs c = Except.ok ()) :
    0 ≤ c.warm_ep ∧ c.warm_ep < c.epochs := by
  unfold checkCfgs at h
  simp only [req_ok] at h
  exact h.2.2.2.2.2.2.1

/-- Witness for C8: the accepted configuration `cfgOk` has
`warm_ep = 1` within `[0, epochs) = [0, 3)`. -/
theorem checkCfgs_warm_bounds_witness :
    0 ≤ cfgOk.warm_ep ∧ cfgOk.warm_ep < cfgOk.epochs :=
  checkCfgs_warm_bounds cfgOk (by decide)

/-! ## Concrete run configurations and streams for witnesses. -/

def zeroStream : Nat → ℚ := fun _ => 0

/-- The spec scenario shape: `warm_ep = 2`, `epochs = 3`, mixup ratio 0,
single-process rank `-1`, CPU device. -/
def cfgRunEx : RunCfg :=
  ⟨3, 2, 1, 2, 0, (0, 1), 5, 0, false, LossFn.nullLoss, false, [4],
   [TStep.other 0], [TStep.other 1], -1, true⟩

/-- A focal-loss run: `warm_ep = 1`, `epochs = 3`, focal enabled with
effective epoch 1 (swap at absolute epoch 2). -/
def cfgFocalEx : RunCfg :=
  ⟨3, 1, 1, 2, 0, (0, 1), 5, 1, true, LossFn.focal, false, [4],
   [TStep.other 0], [TStep.other 1], -1, true⟩

/-! ## Claims about the epoch loop. -/

/-- Claim C1: in a fresh run the optimizer starts with the configured
warmup momentum; every epoch `e < warm_ep` trains with the warmup
momentum, every epoch `e ≥ warm_ep` with the target momentum, and the
switch (the line-419 branch) executes exactly at the epoch `e = warm_ep`. -/
theorem run_momentum_warmup_schedule (cfg : RunCfg) (f u b : Nat → ℚ)
    (i : Nat) (hi : i < cfg.epochs + cfg.warm_ep) :
    (initState cfg).momentum = cfg.warmup_momentum ∧
    (runLog cfg f u b i).momentumUsed
      = (if i < cfg.warm_ep then cfg.warmup_momentum else cfg.momentum) ∧
    (runLog cfg f u b i).momentumSwitched = decide (i = cfg.warm_ep) := by
  refine ⟨rfl, ?_⟩
  have hlen : i < ((runFresh cfg f u b).2).length := by
    rw [runFresh_length]; exact hi
  have hstep : ∀ e s,
      s.momentum = (if e ≤ cfg.warm_ep then cfg.warmup_momentum else cfg.momentum) →
      ((epochBody cfg f u b e s).2.momentumUsed
          = (if e < cfg.warm_ep then cfg.warmup_momentum else cfg.momentum) ∧
        (epochBody cfg f u b e s).2.momentumSwitched = decide (e = cfg.warm_ep)) ∧
      (epochBody cfg f u b e s).1.momentum
        = (if e + 1 ≤ cfg.warm_ep then cfg.warmup_momentum else cfg.momentum) := by
    intro e s hI
    refine ⟨⟨?_, eb_mswitch cfg f u b e s⟩, ?_⟩
    · rw [eb_mom cfg f u b e s, hI]
      split_ifs <;> first | rfl | (exfalso; omega)
    · rw [eb_mom_state cfg f u b e s, hI]
      split_ifs <;> first | rfl | (exfalso; omega)
  have h := runFrom_log cfg f u b
    (fun e s => s.momentum = (if e ≤ cfg.warm_ep then cfg.warmup_momentum else cfg.momentum))
    (fun e log =>
      log.momentumUsed = (if e < cfg.warm_ep then cfg.warmup_momentum else cfg.momentum)
      ∧ log.momentumSwitched = decide (e = cfg.warm_ep))
    hstep (cfg.epochs + cfg.warm_ep) 0 (initState cfg)
    (by simp [initState]) i hlen
  rw [runLog_eq_get cfg f u b i hlen]
  simpa using h

/-- Witness for C1: in `cfgRunEx` (`warm_ep = 2`) epoch 0 trains with the
warmup momentum 1, epoch 2 with the target momentum 2, and the switch flag
is set exactly at epoch 2. -/
theorem run_momentum_warmup_schedule_witness :
    (runLog cfgRunEx zeroStream zeroStream zeroStream 0).momentumUsed = 1 ∧
    (runLog cfgRunEx zeroStream zeroStream zeroStream 2).momentumUsed = 2 ∧
    (runLog cfgRunEx zeroStream zeroStream zeroStream 2).momentumSwitched = true := by
  have h0 := (run_momentum_warmup_schedule cfgRunEx zeroStream zeroStream zeroStream
    0 (by decide)).2.1
  have h2 := run_momentum_warmup_schedule cfgRunEx zeroStream zeroStream zeroStream
    2 (by decide)
  rw [if_pos (by decide)] at h0
  refine ⟨h0, ?_, ?_⟩
  · have := h2.2.1
    rw [if_neg (by decide)] at this
    exact this
  · have := h2.2.2
    simpa using this

/-- Claim C5: a fresh run executes exactly `epochs + warm_ep` epochs,
indexed `0` through `epochs + warm_ep - 1`, and the warmup-relative index
the loop hands to every curriculum call is `e - warm_ep`. -/
theorem run_total_epochs (cfg : RunCfg) (f u b : Nat → ℚ) :
    ((runFresh cfg f u b).2).length = cfg.epochs + cfg.warm_ep ∧
    ∀ i, i < cfg.epochs + cfg.warm_ep →
      (runLog cfg f u b i).epoch = i ∧
      (runLog cfg f u b i).relEpoch = (i : Int) - cfg.warm_ep := by
  refine ⟨runFresh_length cfg f u b, ?_⟩
  intro i hi
  have hlen : i < ((runFresh cfg f u b).2).length := by
    rw [runFresh_length]; exact hi
  have h := runFrom_log cfg f u b (fun _ _ => True)
    (fun e log => log.epoch = e ∧ log.relEpoch = (e : Int) - cfg.warm_ep)
    (fun e s _ => ⟨⟨eb_epoch cfg f u b e s, eb_rel cfg f u b e s⟩, trivial⟩)
    (cfg.epochs + cfg.warm_ep) 0 (initState cfg) trivial i hlen
  rw [runLog_eq_get cfg f u b i hlen]
  simpa using h

/-- Witness for C5: the scenario `warm_ep = 2, epochs = 3` runs exactly 5
epochs and epoch 0 carries relative index `-2`. -/
theorem run_total_epochs_witness :
    ((runFresh cfgRunEx zeroStream zeroStream zeroStream).2).length = 5 ∧
    (runLog cfgRunEx zeroStream zeroStream zeroStream 0).relEpoch = -2 := by
  have h := run_total_epochs cfgRunEx zeroStream zeroStream zeroStream
  refine ⟨h.1, ?_⟩
  have := (h.2 0 (by decide)).2
  simpa using this


/-- Claim C4: with focal loss enabled (`focal_on` set and a focal loss
object configured, effective epoch non-negative), a fresh run trains with
the original loss at every epoch before `warm_ep + focal_eff_epo`, swaps
permanently to the focal loss at exactly that epoch (the guard of
`auto_replace_lossfn` fires there, clearing `focal_on` so no later check
fires), and never swaps back. -/
theorem run_focal_swap_once (cfg : RunCfg) (f u b : Nat → ℚ)
    (h1 : cfg.focal_on_init = true) (h2 : cfg.focalObj = LossFn.focal)
    (h3 : 0 ≤ cfg.focal_eff_epo)
    (i : Nat) (hi : i < cfg.epochs + cfg.warm_ep) :
    (runLog cfg f u b i).lossUsed
      = (if (i : Int) < (cfg.warm_ep : Int) + cfg.focal_eff_epo
         then LossFn.base else LossFn.focal) ∧
    (runLog cfg f u b i).focalSwapped
      = decide ((i : Int) = (cfg.warm_ep : Int) + cfg.focal_eff_epo) := by
  have hlen : i < ((runFresh cfg f u b).2).length := by
    rw [runFresh_length]; exact hi
  have hstep : ∀ (e : Nat) (s : ProcState),
      (((e : Int) ≤ (cfg.warm_ep : Int) + cfg.focal_eff_epo →
          s.lossfn = LossFn.base ∧ s.focal_on = true) ∧
        ((cfg.warm_ep : Int) + cfg.focal_eff_epo < (e : Int) →
          s.lossfn = LossFn.focal ∧ s.focal_on = false)) →
      (((epochBody cfg f u b e s).2.lossUsed
          = (if (e : Int) < (cfg.warm_ep : Int) + cfg.focal_eff_epo
             then LossFn.base else LossFn.focal) ∧
        (epochBody cfg f u b e s).2.focalSwapped
          = decide ((e : Int) = (cfg.warm_ep : Int) + cfg.focal_eff_epo)) ∧
      ((((e : Int) + 1) ≤ (cfg.warm_ep : Int) + cfg.focal_eff_epo →
          (epochBody cfg f u b e s).1.lossfn = LossFn.base ∧
          (epochBody cfg f u b e s).1.focal_on = true) ∧
        ((cfg.warm_ep : Int) + cfg.focal_eff_epo < (e : Int) + 1 →
          (epochBody cfg f u b e s).1.lossfn = LossFn.focal ∧
          (epochBody cfg f u b e s).1.focal_on = false))) := by
    intro e s hI
    rcases lt_trichotomy ((e : Int)) ((cfg.warm_ep : Int) + cfg.focal_eff_epo)
      with hlt | heq | hgt
    · obtain ⟨hbase, hon⟩ := hI.1 hlt.le
      have hguard : s.focal_on = false ∨ (e : Int) - cfg.warm_ep < cfg.focal_eff_epo :=
        Or.inr (by omega)
      refine ⟨⟨?_, ?_⟩, ?_, ?_⟩
      · rw [eb_loss cfg f u b e s, if_pos hguard, hbase, if_pos hlt]
      · rw [eb_swapflag cfg f u b e s, hon]
        simp only [Bool.true_and]
        rw [decide_eq_false (by omega : ¬ cfg.focal_eff_epo ≤ (e : Int) - cfg.warm_ep),
          decide_eq_false (by omega : ¬ (e : Int) = (cfg.warm_ep : Int) + cfg.focal_eff_epo)]
      · intro _
        rw [eb_loss_state cfg f u b e s, eb_focal_state cfg f u b e s,
          if_pos hguard, if_pos hguard]
        exact ⟨hbase, hon⟩
      · intro hcon
        exfalso
        omega
    · obtain ⟨hbase, hon⟩ := hI.1 heq.le
      have hguard : ¬ (s.focal_on = false ∨ (e : Int) - cfg.warm_ep < cfg.focal_eff_epo) := by
        rw [hon]
        push_neg
        exact ⟨by simp, by omega⟩
      refine ⟨⟨?_, ?_⟩, ?_, ?_⟩
      · rw [eb_loss cfg f u b e s, if_neg hguard, h2, if_neg (by omega)]
      · rw [eb_swapflag cfg f u b e s, hon]
        simp only [Bool.true_and]
        rw [decide_eq_true (by omega : cfg.focal_eff_epo ≤ (e : Int) - cfg.warm_ep),
          decide_eq_true heq]
      · intro hcon
        exfalso
        omega
      · intro _
        rw [eb_loss_state cfg f u b e s, eb_focal_state cfg f u b e s,
          if_neg hguard, if_neg hguard]
        exact ⟨h2, rfl⟩
    · obtain ⟨hfoc, hoff⟩ := hI.2 hgt
      have hguard : s.focal_on = false ∨ (e : Int) - cfg.warm_ep < cfg.focal_eff_epo :=
        Or.inl hoff
      refine ⟨⟨?_, ?_⟩, ?_, ?_⟩
      · rw [eb_loss cfg f u b e s, if_pos hguard, hfoc, if_neg (by omega)]
      · rw [eb_swapflag cfg f u b e s, hoff]
        simp only [Bool.false_and]
        rw [decide_eq_false (by omega : ¬ (e : Int) = (cfg.warm_ep : Int) + cfg.focal_eff_epo)]
      · intro hcon
        exfalso
        omega
      · intro _
        rw [eb_loss_state cfg f u b e s, eb_focal_state cfg f u b e s,
          if_pos hguard, if_pos hguard]
        exact ⟨hfoc, hoff⟩
  have h := runFrom_log cfg f u b
    (fun e s =>
      ((e : Int) ≤ (cfg.warm_ep : Int) + cfg.focal_eff_epo →
        s.lossfn = LossFn.base ∧ s.focal_on = true) ∧
      ((cfg.warm_ep : Int) + cfg.focal_eff_epo < (e : Int) →
        s.lossfn = LossFn.focal ∧ s.focal_on = false))
    (fun e log =>
      log.lossUsed = (if (e : Int) < (cfg.warm_ep : Int) + cfg.focal_eff_epo
         then LossFn.base else LossFn.focal) ∧
      log.focalSwapped = decide ((e : Int) = (cfg.warm_ep : Int) + cfg.focal_eff_epo))
    (fun e s hI => by
      have hh := hstep e s hI
      exact ⟨hh.1, by push_cast; exact hh.2⟩)
    (cfg.epochs + cfg.warm_ep) 0 (initState cfg)
    ⟨fun _ => ⟨rfl, h1⟩, fun hcon => absurd hcon (by omega)⟩ i hlen
  rw [runLog_eq_get cfg f u b i hlen]
  simpa using h

/-- Witness for C4: in `cfgFocalEx` (`warm_ep = 1`, effective epoch 1) the
original loss is active at epoch 1 and the focal loss from epoch 2 on,
with the swap flag set at epoch 2. -/
theorem run_focal_swap_once_witness :
    (runLog cfgFocalEx zeroStream zeroStream zeroStream 1).lossUsed = LossFn.base ∧
    (runLog cfgFocalEx zeroStream zeroStream zeroStream 2).lossUsed = LossFn.focal ∧
    (runLog cfgFocalEx zeroStream zeroStream zeroStream 2).focalSwapped = true ∧
    (runLog cfgFocalEx zeroStream zeroStream zeroStream 3).lossUsed = LossFn.focal := by
  have ha := run_focal_swap_once cfgFocalEx zeroStream zeroStream zeroStream
    rfl rfl (by decide) 1 (by decide)
  have hb := run_focal_swap_once cfgFocalEx zeroStream zeroStream zeroStream
    rfl rfl (by decide) 2 (by decide)
  have hc := run_focal_swap_once cfgFocalEx zeroStream zeroStream zeroStream
    rfl rfl (by decide) 3 (by decide)
  refine ⟨?_, ?_, ?_, ?_⟩
  · have := ha.1
    rw [if_pos (by decide)] at this
    exact this
  · have := hb.1
    rw [if_neg (by decide)] at this
    exact this
  · have := hb.2
    simpa using this
  · have := hc.1
    rw [if_neg (by decide)] at this
    exact this


/-- Claim C2 (amended): on the coordinating rank every epoch updates
best-fitness only on strict improvement (`bestUpTo` tracks exactly that),
always writes the checkpoint bundle
`{epoch, best_fitness, model, optimizer, scheduler, scaler-if-accelerator}`
to the "last" slot, and writes the same bundle to the "best" slot exactly
when the epoch's fitness is at least the previous best (the line-458 test
`best_fitness == fitness` also fires on ties, including fitness equal to
the zero-initialised best), not only on strict improvement. -/
theorem run_checkpoint_policy (cfg : RunCfg) (f u b : Nat → ℚ)
    (hc : cfg.rank = -1 ∨ cfg.rank = 0)
    (i : Nat) (hi : i < cfg.epochs + cfg.warm_ep) :
    (runLog cfg f u b i).fitness = f i ∧
    (runLog cfg f u b i).bestAfter = bestUpTo f (i + 1) ∧
    (runLog cfg f u b i).savedLast = some (expectedCkpt cfg f i) ∧
    (runLog cfg f u b i).savedBest
      = (if bestUpTo f i ≤ f i then some (expectedCkpt cfg f i) else none) := by
  have hlen : i < ((runFresh cfg f u b).2).length := by
    rw [runFresh_length]; exact hi
  have hstep : ∀ (e : Nat) (s : ProcState),
      (s.best_fitness = bestUpTo f e ∧
        s.momentum = (if e ≤ cfg.warm_ep then cfg.warmup_momentum else cfg.momentum)) →
      (((epochBody cfg f u b e s).2.fitness = f e ∧
        (epochBody cfg f u b e s).2.bestAfter = bestUpTo f (e + 1) ∧
        (epochBody cfg f u b e s).2.savedLast = some (expectedCkpt cfg f e) ∧
        (epochBody cfg f u b e s).2.savedBest
          = (if bestUpTo f e ≤ f e then some (expectedCkpt cfg f e) else none)) ∧
      ((epochBody cfg f u b e s).1.best_fitness = bestUpTo f (e + 1) ∧
        (epochBody cfg f u b e s).1.momentum
          = (if e + 1 ≤ cfg.warm_ep then cfg.warmup_momentum else cfg.momentum))) := by
    intro e s hI
    have hMom : (if e = cfg.warm_ep then cfg.momentum else s.momentum)
        = (if e < cfg.warm_ep then cfg.warmup_momentum else cfg.momentum) := by
      rw [hI.2]
      split_ifs <;> first | rfl | (exfalso; omega)
    have hCkpt :
        (⟨e, (if f e > s.best_fitness then f e else s.best_fitness), (),
          (if e = cfg.warm_ep then cfg.momentum else s.momentum), (),
          (if cfg.isCpu then none else some ())⟩ : Ckpt) = expectedCkpt cfg f e := by
      unfold expectedCkpt
      rw [hMom, hI.1]
      rfl
    have hLast : (epochBody cfg f u b e s).2.savedLast = some (expectedCkpt cfg f e) := by
      rw [eb_savedLast cfg f u b e s, if_pos hc, hCkpt]
    have hBestState : (epochBody cfg f u b e s).1.best_fitness = bestUpTo f (e + 1) := by
      rw [eb_best_state cfg f u b e s, if_pos hc, hI.1]
      rfl
    refine ⟨⟨eb_fit cfg f u b e s, ?_, hLast, ?_⟩, hBestState, ?_⟩
    · rw [eb_bestAfter cfg f u b e s]
      exact hBestState
    · rw [eb_savedBest cfg f u b e s, if_pos hc, hCkpt, hI.1]
      have hiff : ((if f e > bestUpTo f e then f e else bestUpTo f e) = f e)
          ↔ (bestUpTo f e ≤ f e) := by
        constructor
        · intro h
          by_cases hgt : f e > bestUpTo f e
          · exact hgt.le
          · rw [if_neg hgt] at h
            exact h.le
        · intro h
          by_cases hgt : f e > bestUpTo f e
          · rw [if_pos hgt]
          · rw [if_neg hgt]
            exact le_antisymm h (not_lt.mp hgt)
      rw [if_congr hiff rfl rfl]
    · rw [eb_mom_state cfg f u b e s, hI.2]
      split_ifs <;> first | rfl | (exfalso; omega)
  have h := runFrom_log cfg f u b
    (fun e s => s.best_fitness = bestUpTo f e ∧
      s.momentum = (if e ≤ cfg.warm_ep then cfg.warmup_momentum else cfg.momentum))
    (fun e log =>
      log.fitness = f e ∧
      log.bestAfter = bestUpTo f (e + 1) ∧
      log.savedLast = some (expectedCkpt cfg f e) ∧
      log.savedBest = (if bestUpTo f e ≤ f e then some (expectedCkpt cfg f e) else none))
    hstep (cfg.epochs + cfg.warm_ep) 0 (initState cfg)
    ⟨rfl, by simp [initState]⟩ i hlen
  rw [runLog_eq_get cfg f u b i hlen]
  simpa using h

/-- Witness for C2: in the scenario run (`rank = -1`) with fitness
sequence `0, 0, ...` epoch 0 writes both slots and carries the bundle
`{epoch 0, best 0, momentum 1, no scaler on CPU}`. -/
theorem run_checkpoint_policy_witness :
    (runLog cfgRunEx zeroStream zeroStream zeroStream 0).savedLast
      = some (expectedCkpt cfgRunEx zeroStream 0) ∧
    (runLog cfgRunEx zeroStream zeroStream zeroStream 0).savedBest
      = some (expectedCkpt cfgRunEx zeroStream 0) := by
  have h := run_checkpoint_policy cfgRunEx zeroStream zeroStream zeroStream
    (Or.inl rfl) 0 (by decide)
  refine ⟨h.2.2.1, ?_⟩
  have := h.2.2.2
  rw [if_pos (by decide)] at this
  exact this

/-- Counterexample for C2 as stated: with every fitness equal to `0.`, the
epoch-0 fitness does not strictly improve on the zero-initialised best
fitness (so it is not "a new best" and best-fitness is not updated), yet
`best.pt` is written, because line 458 compares with `==` after the
no-op update. -/
theorem best_slot_tie_counterexample :
    (runLog cfgRunEx zeroStream zeroStream zeroStream 0).fitness = 0 ∧
    (runLog cfgRunEx zeroStream zeroStream zeroStream 0).bestAfter = 0 ∧
    ¬ ((0 : ℚ) > 0) ∧
    (runLog cfgRunEx zeroStream zeroStream zeroStream 0).savedBest ≠ none := by
  refine ⟨?_, ?_, by norm_num, ?_⟩ <;> decide


/-! ## Claims about `Datasets.__init__`. -/

theorem buildFrom_lengths (srcPath : String) (listdirOf : String → List String) :
    ∀ (cs : List String) (idx : Nat),
      (buildFrom srcPath listdirOf cs idx).1.length
        = (buildFrom srcPath listdirOf cs idx).2.length := by
  intro cs
  induction cs with
  | nil => intro idx; rfl
  | cons cla rest ih =>
    intro idx
    simp [buildFrom, ih (idx + 1)]

theorem buildFrom_labels_bound (srcPath : String) (listdirOf : String → List String) :
    ∀ (cs : List String) (idx lab : Nat),
      lab ∈ (buildFrom srcPath listdirOf cs idx).2 → lab < idx + cs.length := by
  intro cs
  induction cs with
  | nil =>
    intro idx lab hmem
    simp [buildFrom] at hmem
  | cons cla rest ih =>
    intro idx lab hmem
    simp only [buildFrom, List.mem_append, List.mem_map] at hmem
    simp only [List.length_cons]
    rcases hmem with ⟨_, _, hlab⟩ | hmem
    · omega
    · have := ih (idx + 1) lab hmem
      omega

theorem buildFrom_labels_lb (srcPath : String) (listdirOf : String → List String) :
    ∀ (cs : List String) (idx lab : Nat),
      lab ∈ (buildFrom srcPath listdirOf cs idx).2 → idx ≤ lab := by
  intro cs
  induction cs with
  | nil =>
    intro idx lab hmem
    simp [buildFrom] at hmem
  | cons cla rest ih =>
    intro idx lab hmem
    simp only [buildFrom, List.mem_append, List.mem_map] at hmem
    rcases hmem with ⟨_, _, hlab⟩ | hmem
    · omega
    · have := ih (idx + 1) lab hmem
      omega

theorem buildFrom_labels_pairwise (srcPath : String) (listdirOf : String → List String) :
    ∀ (cs : List String) (idx : Nat),
      (buildFrom srcPath listdirOf cs idx).2.Pairwise (· ≤ ·) := by
  intro cs
  induction cs with
  | nil => intro idx; simp [buildFrom]
  | cons cla rest ih =>
    intro idx
    simp only [buildFrom]
    refine List.pairwise_append.mpr ⟨?_, ih (idx + 1), ?_⟩
    · rw [List.pairwise_map]
      exact List.Pairwise.imp (fun _ => le_refl idx)
        (List.pairwise_of_forall (fun _ _ => trivial))
    · intro a ha lab hlab
      have h1 : a = idx := by
        rcases List.mem_map.mp ha with ⟨_, _, h⟩
        omega
      have h2 := buildFrom_labels_lb srcPath listdirOf rest (idx + 1) lab hlab
      omega

theorem buildFrom_images_mem (srcPath : String) (listdirOf : String → List String) :
    ∀ (cs : List String) (idx : Nat) (p : String),
      p ∈ (buildFrom srcPath listdirOf cs idx).1 →
      ∃ cla name, cla ∈ cs ∧ name ∈ listdirOf (pj srcPath cla) ∧
        splitextExt name ∈ support ∧ p = pj (pj srcPath cla) name := by
  intro cs
  induction cs with
  | nil =>
    intro idx p hmem
    simp [buildFrom] at hmem
  | cons cla rest ih =>
    intro idx p hmem
    simp only [buildFrom, List.mem_append] at hmem
    rcases hmem with hmem | hmem
    · simp only [collectClass, List.mem_map, List.mem_filter] at hmem
      obtain ⟨name, ⟨hname, hext⟩, hp⟩ := hmem
      exact ⟨cla, name, List.mem_cons_self cla rest, hname,
        by simpa using hext, hp.symm⟩
    · obtain ⟨cla2, name, hcla, hname, hext, hp⟩ := ih (idx + 1) p hmem
      exact ⟨cla2, name, List.mem_cons_of_mem cla hcla, hname, hext, hp⟩

/-- Claim C9: the class-name-to-index mapping is a deterministic function
of the set of directory names — permuted listings yield the identical
mapping — and it pairs exactly the sorted class names with the 0-based
indices `0, …, n-1` in sorted-name order. -/
theorem class_indices_deterministic (l1 l2 : List String) (h : l1.Perm l2) :
    classIndicesOfListing l1 = classIndicesOfListing l2 ∧
    (classIndicesOfListing l1).map Prod.fst = sortStrings l1 ∧
    (classIndicesOfListing l1).map Prod.snd = List.range l1.length ∧
    (sortStrings l1).Sorted (· ≤ ·) := by
  have hsort : sortStrings l1 = sortStrings l2 :=
    List.eq_of_perm_of_sorted
      ((List.perm_insertionSort _ l1).trans (h.trans (List.perm_insertionSort _ l2).symm))
      (List.sorted_insertionSort _ l1)
      (List.sorted_insertionSort _ l2)
  refine ⟨?_, ?_, ?_, List.sorted_insertionSort _ l1⟩
  · unfold classIndicesOfListing
    rw [hsort]
  · simp [classIndicesOfListing, classIndices, List.map_map, Function.comp_def]
  · have hlen : (sortStrings l1).length = l1.length :=
      (List.perm_insertionSort _ l1).length_eq
    simp [classIndicesOfListing, classIndices, List.map_map, Function.comp_def, hlen]

/-- Witness for C9: the listings `["dog", "cat"]` and `["cat", "dog"]`
yield the identical mapping, with indices `0, 1` over the sorted names. -/
theorem class_indices_deterministic_witness :
    classIndicesOfListing ["dog", "cat"] = classIndicesOfListing ["cat", "dog"] ∧
    (classIndicesOfListing ["dog", "cat"]).map Prod.snd = List.range 2 := by
  have h := class_indices_deterministic ["dog", "cat"] ["cat", "dog"] (by decide)
  exact ⟨h.1, h.2.2.1⟩

/-- Claim C10: every constructed dataset has image and label lists of equal
length (the value `__len__` returns), every label lies in
`[0, number of classes)`, the label sequence is non-decreasing (classes are
collected in sorted order), and every collected path is a file of one of
the scanned class directories whose extension is `.jpg` or `.png`. -/
theorem dataset_invariants (root mode : String)
    (listdirOf : String → List String) (isDir : String → Bool) :
    (datasetsInit root mode listdirOf isDir).images.length
      = (datasetsInit root mode listdirOf isDir).labels.length ∧
    datasetsLen (datasetsInit root mode listdirOf isDir)
      = (datasetsInit root mode listdirOf isDir).images.length ∧
    (∀ lab, lab ∈ (datasetsInit root mode listdirOf isDir).labels →
      lab < (datasetsInit root mode listdirOf isDir).classNames.length) ∧
    (datasetsInit root mode listdirOf isDir).labels.Pairwise (· ≤ ·) ∧
    (∀ p, p ∈ (datasetsInit root mode listdirOf isDir).images →
      ∃ cla name, cla ∈ (datasetsInit root mode listdirOf isDir).classNames ∧
        name ∈ listdirOf (pj (pj root mode) cla) ∧
        splitextExt name ∈ support ∧
        p = pj (pj (pj root mode) cla) name) := by
  refine ⟨?_, rfl, ?_, ?_, ?_⟩
  · exact buildFrom_lengths (pj root mode) listdirOf _ 0
  · intro lab hmem
    have := buildFrom_labels_bound (pj root mode) listdirOf _ 0 lab hmem
    simpa using this
  · exact buildFrom_labels_pairwise (pj root mode) listdirOf _ 0
  · intro p hmem
    exact buildFrom_images_mem (pj root mode) listdirOf _ 0 p hmem

/-- Example filesystem: `data/train` holds the class directory `cat` and a
stray file; `cat` holds two images and one non-image file. -/
def exLd : String → List String := fun p =>
  if p == "data/train" then ["cat", "readme.txt"]
  else if p == "data/train/cat" then ["a.jpg", "b.txt", "c.png"]
  else []

def exIsDir : String → Bool := fun p => p == "data/train/cat"

/-- Witness for C10: the example dataset has one class, labels in range
and non-decreasing. -/
theorem dataset_invariants_witness :
    ((0 : Nat) < (datasetsInit "data" "train" exLd exIsDir).classNames.length) ∧
    (datasetsInit "data" "train" exLd exIsDir).labels.Pairwise (· ≤ ·) := by
  have h := dataset_invariants "data" "train" exLd exIsDir
  exact ⟨h.2.2.1 0 (by decide), h.2.2.2.1⟩


end VisCls
